import Mathlib

/-!
Verification development for the OCT backend service
(`app.py`, `config.py`, `utils/storage.py`, `utils/inference.py`).

Strings are modelled as `List Char` (`Str`), Python floats as `ℚ`.
External effects (filesystem listing, UUID randomness, the Keras model,
werkzeug's `secure_filename`, float formatting) appear as explicit
parameters of the embedded functions.
-/

namespace OCT

/-- Filenames, ids and message text, modelled as lists of characters. -/
abbrev Str := List Char

/-- Coerce a Lean string literal to the `Str` model. -/
def str (s : String) : Str := s.data

/-- `s` starts with `p` (Python `str.startswith` / name-prefix test). -/
def startsWithL : Str → Str → Bool
  | _, [] => true
  | [], _ :: _ => false
  | c :: s, d :: p => c == d && startsWithL s p

/-- ASCII lower-casing of one character, modelling Python `str.lower`
on the ASCII inputs this service deals with. -/
def pyLowerChar (c : Char) : Char := c.toLower

/-- Python `str.lower` on the ASCII fragment. -/
def pyLower (s : Str) : Str := s.map pyLowerChar

/-- ASCII upper-casing of one character, modelling Python `str.upper`. -/
def pyUpperChar (c : Char) : Char := c.toUpper

/-- Python `str.upper` on the ASCII fragment. -/
def pyUpper (s : Str) : Str := s.map pyUpperChar

/-- Python `s.rstrip("/")`: drop trailing slashes. -/
def rstripSlash (s : Str) : Str := ((s.reverse.dropWhile (fun c => c == '/')).reverse)

/-- `os.path.join` on POSIX for a relative second component, as used by the
handlers (`os.path.join(folder, name)`). -/
def pathJoin (a b : Str) : Str := a ++ '/' :: b

/-! ## config.py -/

/-- `Config.ALLOWED_EXTENSIONS = {"png", "jpg", "jpeg", "dcm"}` (config.py). -/
def ALLOWED_EXTENSIONS : List Str := [str "png", str "jpg", str "jpeg", str "dcm"]

/-- `Config.CLASS_NAMES` (config.py). -/
def CLASS_NAMES : List Str :=
  [str "AMD", str "CNV", str "CSR", str "DME", str "DR", str "DRUSEN", str "MH", str "NORMAL"]

/-! ## utils/storage.py -/

/-- Suffix of `s` after its last `'.'` — the second component of Python's
`filename.rsplit(".", 1)` when a dot is present, `none` otherwise. -/
def lastExt : Str → Option Str
  | [] => none
  | c :: cs =>
    match lastExt cs with
    | some e => some e
    | none => if c == '.' then some cs else none

/-- `is_allowed_file(filename, allowed_extensions)` (storage.py lines 11-15):
returns False when the filename has no `'.'`, else compares the lowercased
suffix after the last `'.'` against the allowed set. -/
def is_allowed_file (filename : Str) (allowed_extensions : List Str) : Bool :=
  if !(filename.contains '.') then false
  else
    match lastExt filename with
    | some extension => allowed_extensions.contains (pyLower extension)
    | none => false

/-- `generate_image_id()` (storage.py lines 18-19): `"oct_" + uuid.uuid4().hex[:8]`.
The draw `uuid.uuid4().hex` — a 32-character lowercase hexadecimal string —
is the explicit argument. -/
def generate_image_id (uuid4_hex : Str) : Str := str "oct_" ++ uuid4_hex.take 8

/-- `build_saved_filename(image_id, original_filename)` (storage.py lines 22-23):
`f"{image_id}_" + secure_filename(original_filename)`, with werkzeug's
`secure_filename` passed in as an opaque sanitizer. -/
def build_saved_filename (secure_name : Str → Str) (image_id original_filename : Str) : Str :=
  image_id ++ '_' :: secure_name original_filename

/-- `find_image_path_by_id(image_id, upload_folder)` (storage.py lines 26-37):
when the upload folder is a directory, scan its listing for the first name
starting with `"<image_id>_"` and return the joined path, else `None`.
The directory's existence and its `os.listdir` result are explicit. -/
def find_image_path_by_id (image_id upload_folder : Str) (isDir : Bool)
    (listing : List Str) : Option Str :=
  if !isDir then none
  else
    match listing.find? (fun name => startsWithL name (image_id ++ ['_'])) with
    | some name => some (pathJoin upload_folder name)
    | none => none

/-! ## utils/inference.py -/

/-- A Python `dict` from labels to probabilities, insertion-ordered. -/
abbrev PyDict := List (Str × ℚ)

/-- One `dict` insertion `d[k] = v`: overwrite in place when the key is
already present (Python keeps the original position), else append. -/
def dictInsert (d : PyDict) (k : Str) (v : ℚ) : PyDict :=
  if d.any (fun kv => decide (kv.1 = k)) then
    d.map (fun kv => if kv.1 = k then (k, v) else kv)
  else d ++ [(k, v)]

/-- `d[k]` lookup on the dict model. -/
def dictGet (d : PyDict) (k : Str) : Option ℚ :=
  (d.find? (fun kv => decide (kv.1 = k))).map (fun kv => kv.2)

/-- Maximum entry of a probability vector (value attained by `np.max`). -/
def maxVal : List ℚ → ℚ
  | [] => 0
  | [x] => x
  | x :: y :: xs => max x (maxVal (y :: xs))

/-- `int(np.argmax(probs))`: index of the first occurrence of the maximum. -/
def argmaxQ : List ℚ → Nat
  | [] => 0
  | [_] => 0
  | x :: y :: xs => if x < maxVal (y :: xs) then argmaxQ (y :: xs) + 1 else 0

/-- `DEFAULT_CLASS_NAMES` (inference.py line 11). -/
def DEFAULT_CLASS_NAMES : List Str :=
  [str "AMD", str "CNV", str "CSR", str "DME", str "DR", str "DRUSEN", str "MH", str "NORMAL"]

/-- `get_model(model_path)` (inference.py lines 14-18) acting on the
process-wide cache `_model`. `load_model` is Keras' loader, which may
raise; a raised exception propagates and — since the assignment
`_model = load_model(model_path)` never executes — leaves the cache
unchanged. The value is the call's outcome paired with the cache after
the call. -/
def get_model {M : Type} (load_model : Str → Except Str M) (model_path : Str)
    (cache : Option M) : Except Str M × Option M :=
  match cache with
  | some m => (Except.ok m, some m)
  | none =>
    match load_model model_path with
    | Except.ok m => (Except.ok m, some m)
    | Except.error e => (Except.error e, none)

/-- Result dict of `predict_oct`. -/
structure PredRes where
  predictions : PyDict
  top_disease : Str
  confidence : ℚ
  deriving DecidableEq

/-- The dict comprehension
`{class_names[i]: float(probs[i]) for i in range(len(class_names))}`
(inference.py line 35). -/
def buildPreds (class_names : List Str) (probs : List ℚ) : PyDict :=
  (List.range class_names.length).foldl
    (fun d i => dictInsert d (class_names.getD i []) (probs.getD i 0)) []

/-- `predict_oct(image_path, model_path, class_names)` (inference.py lines
21-38). The composite of `get_model` + image preprocessing + the forward
pass `model.predict(x)[0]` — all external library calls — is abstracted as
`model_probs model_path image_path`, the probability vector the loaded
model produces for the image. -/
def predict_oct (model_probs : Str → Str → List ℚ) (image_path model_path : Str)
    (class_names? : Option (List Str)) : PredRes :=
  let class_names := class_names?.getD DEFAULT_CLASS_NAMES
  let probs := model_probs model_path image_path
  let top_idx := argmaxQ probs
  { predictions := buildPreds class_names probs
    top_disease := class_names.getD top_idx []
    confidence := probs.getD top_idx 0 }

/-! ## app.py -/

/-- The summary/recommendation pair computed inline by the `predict`
handler (app.py lines 79-87): branch on `top_label.upper() == "NORMAL"`,
with the confidence percentage rendered by Python's `:.1f` float
formatting, passed in as `fmtOne`. -/
def predict_summary_rec (fmtOne : ℚ → Str) (top_label : Str) (confidence : ℚ) : Str × Str :=
  let conf_pct := confidence * 100
  if pyUpper top_label = str "NORMAL" then
    (str "AI suggests no significant abnormalities detected (" ++ fmtOne conf_pct
       ++ str "% confidence).",
     str "Routine monitoring advised; follow standard screening intervals.")
  else
    (str "AI suggests " ++ top_label ++ str " with " ++ fmtOne conf_pct ++ str "% confidence.",
     str "Recommend ophthalmology evaluation and correlation with clinical findings.")

/-- The summary/recommendation pair computed inline by the
`generate_pdf_report` handler (app.py lines 181-188): branch on
`data["top_disease"].upper() == "NORMAL"` with the same `:.1f`
formatting of `confidence * 100.0`. -/
def report_summary_rec (fmtOne : ℚ → Str) (top_disease : Str) (confidence : ℚ) : Str × Str :=
  let conf_pct := confidence * 100
  if pyUpper top_disease = str "NORMAL" then
    (str "AI suggests no significant abnormalities detected (" ++ fmtOne conf_pct
       ++ str "% confidence).",
     str "Routine monitoring advised; follow standard screening intervals.")
  else
    (str "AI suggests " ++ top_disease ++ str " with " ++ fmtOne conf_pct ++ str "% confidence.",
     str "Recommend ophthalmology evaluation and correlation with clinical findings.")

/-- JSON body of a successful `GET /predict/<id>` response. -/
structure PredictResponse where
  image_id : Str
  predictions : PyDict
  top_disease : Str
  confidence : ℚ
  summary : Str
  recommendation : Str
  deriving DecidableEq

/-- The `predict` handler for `GET /predict/<image_id>` (app.py lines
68-96): resolve the id in the upload folder — `abort(404)` when
unresolvable — then run `predict_oct` with the configured class names and
build the summary/recommendation pair. `Except.error n` is `abort(n)`. -/
def predict_route (model_probs : Str → Str → List ℚ) (fmtOne : ℚ → Str)
    (upload_folder model_path : Str) (isDir : Bool) (listing : List Str)
    (image_id : Str) : Except Nat PredictResponse :=
  match find_image_path_by_id image_id upload_folder isDir listing with
  | none => Except.error 404
  | some image_path =>
    let result := predict_oct model_probs image_path model_path (some CLASS_NAMES)
    let sr := predict_summary_rec fmtOne result.top_disease result.confidence
    Except.ok
      { image_id := image_id
        predictions := result.predictions
        top_disease := result.top_disease
        confidence := result.confidence
        summary := sr.1
        recommendation := sr.2 }

/-- JSON body of a successful `POST /upload` response. -/
structure UploadResponse where
  image_id : Str
  deriving DecidableEq

/-- The `upload_image` handler for `POST /upload` (app.py lines 48-66):
400 when the `image` file field is absent or its filename empty, 400 when
the extension is not allowed; else save the file under
`build_saved_filename(generate_image_id(), filename)` in the upload
folder and return the new id. The request's file field is
`file? : Option Str` (its filename), the fresh UUID hex draw and
werkzeug's sanitizer are explicit, and the upload folder's listing after
`file.save` is returned alongside the response. -/
def upload_route (secure_name : Str → Str) (uuid4_hex : Str) (file? : Option Str)
    (listing : List Str) : Except Nat (UploadResponse × List Str) :=
  match file? with
  | none => Except.error 400
  | some filename =>
    if filename = [] then Except.error 400
    else if !(is_allowed_file filename ALLOWED_EXTENSIONS) then Except.error 400
    else
      let image_id := generate_image_id uuid4_hex
      let safe_name := build_saved_filename secure_name image_id filename
      Except.ok ({ image_id := image_id }, listing ++ [safe_name])

/-- JSON body of a `GET /mask/<id>` response. -/
structure MaskResponse where
  image_id : Str
  overlay_mask_url : Str
  retinal_layer_thickness : PyDict
  notes : Str
  deriving DecidableEq

/-- The `mask` handler for `GET /mask/<image_id>` (app.py lines 98-128),
an explicit stub: choose the base URL (configured `SERVER_BASE_URL` when
non-empty, else the request's host URL), and return the demo overlay URL,
the six hardcoded layer-thickness values and a fixed note. It never
aborts. -/
def mask_route (server_base_url host_url : Str) (image_id : Str) : MaskResponse :=
  let base := if server_base_url ≠ [] then rstripSlash server_base_url
              else rstripSlash host_url
  { image_id := image_id
    overlay_mask_url := base ++ str "/results/result.jpg"
    retinal_layer_thickness :=
      [(str "rnfl", 764/10), (str "gcl", 319/10), (str "ipl", 217/10),
       (str "opl", 194/10), (str "inl", 181/10), (str "onl", 852/10)]
    notes := str "RNFL thinning detected, consistent with glaucoma risk." }

/-- The `disease_full_name` table of `generate_pdf_report`
(app.py lines 236-245). -/
def disease_full_name : List (Str × Str) :=
  [(str "AMD", str "AMD (Age-Related Macular Degeneration)"),
   (str "CNV", str "CNV (Choroidal Neovascularization)"),
   (str "CSR", str "CSR (Central Serous Retinopathy)"),
   (str "DME", str "DME (Diabetic Macular Edema)"),
   (str "DR", str "DR (Diabetic Retinopathy)"),
   (str "DRUSEN", str "DRUSEN (Diabetic Retinopathy with Uveitis)"),
   (str "MH", str "MH (Macular Hole)"),
   (str "NORMAL", str "NORMAL (Normal)")]

/-- `disease_full_name[disease]`: dict lookup, `none` meaning `KeyError`. -/
def fullNameGet (disease : Str) : Option Str :=
  (disease_full_name.find? (fun kv => decide (kv.1 = disease))).map (fun kv => kv.2)

/-- The predictions-table loop of `generate_pdf_report` (app.py lines
246-248): one row `[disease_full_name[disease], f"{prob * 100:.2f}%"]`
per prediction entry, in dict order; a missing key raises `KeyError`
(modelled as `Except.error` carrying the offending label), which happens
before `doc.build` renders the PDF. `fmtTwo` is Python's `:.2f`
formatting. -/
def build_pred_rows (fmtTwo : ℚ → Str) : PyDict → Except Str (List (Str × Str))
  | [] => Except.ok []
  | (disease, prob) :: rest =>
    match fullNameGet disease with
    | none => Except.error disease
    | some full =>
      match build_pred_rows fmtTwo rest with
      | Except.error e => Except.error e
      | Except.ok rows => Except.ok ((full, fmtTwo (prob * 100) ++ str "%") :: rows)

/-! ## Support definitions for the statements -/

/-- A lowercase hexadecimal digit, the alphabet of `uuid.uuid4().hex`. -/
def isLowerHexDigit (c : Char) : Bool := c.isDigit || ('a' ≤ c && c ≤ 'f')

/-- The regular expression `^oct_[0-9a-f]{8}$` as a decidable matcher. -/
def matchesIdPattern (s : Str) : Bool :=
  decide (s.length = 12) && startsWithL s (str "oct_") && (s.drop 4).all isLowerHexDigit

/-- A Keras loader that raises (the model file is missing). -/
def loadFailNat : Str → Except Str Nat := fun _ => Except.error (str "model file missing")

/-- A Keras loader that succeeds (the model file is present). -/
def loadOkNat : Str → Except Str Nat := fun _ => Except.ok 0

/-- A concrete `uuid.uuid4().hex` draw. -/
def hexDrawA : Str := str "aaaaaaaa000000000000000000000000"

/-- A second, distinct `uuid.uuid4().hex` draw agreeing with `hexDrawA`
on the first eight characters. -/
def hexDrawB : Str := str "aaaaaaaa111111111111111111111111"

/-- A third draw used by witnesses. -/
def hexDrawC : Str := str "0123456789abcdef0123456789abcdef"

/-- Specification-side reading of "the suffix after the last `'.'`":
everything to the right of the last dot, computed by scanning from the
right. -/
def suffixAfterLastDot (f : Str) : Str :=
  (f.reverse.takeWhile (fun c => !(c == '.'))).reverse

/-- Whether a fallible computation succeeded (no exception was raised). -/
def exceptOk {E A : Type} : Except E A → Bool
  | Except.ok _ => true
  | Except.error _ => false

/-! ## Helper lemmas -/

theorem startsWithL_append (p s : Str) : startsWithL (p ++ s) p = true := by
  induction p with
  | nil => cases s <;> rfl
  | cons c cs ih => simp [startsWithL, ih]

theorem startsWithL_of_eq_append {s p t : Str} (h : s = p ++ t) :
    startsWithL s p = true := h ▸ startsWithL_append p t

theorem contains_eq_decide_mem (l : Str) (c : Char) : l.contains c = decide (c ∈ l) := by
  simp [List.contains]

theorem lastExt_isSome (f : Str) : (lastExt f).isSome = f.contains '.' := by
  induction f with
  | nil => rfl
  | cons c cs ih =>
    cases h : lastExt cs with
    | some e =>
      rw [h] at ih
      have hmem : cs.contains '.' = true := by rw [← ih]; rfl
      have hmem' : '.' ∈ cs := by
        rw [contains_eq_decide_mem] at hmem
        exact of_decide_eq_true hmem
      simp only [lastExt, h, List.contains_cons]
      simp [hmem']
    | none =>
      rw [h] at ih
      have hmem : cs.contains '.' = false := by rw [← ih]; rfl
      simp only [lastExt, h, List.contains_cons, hmem, Bool.or_false]
      by_cases hc : c = '.'
      · subst hc; simp
      · simp [hc, Ne.symm hc]

theorem lastExt_some_decomp {f e : Str} (h : lastExt f = some e) :
    ∃ a, f = a ++ '.' :: e ∧ e.contains '.' = false := by
  induction f with
  | nil => simp [lastExt] at h
  | cons c cs ih =>
    cases hcs : lastExt cs with
    | some e' =>
      rw [lastExt, hcs] at h
      cases h
      obtain ⟨a, rfl, hne⟩ := ih hcs
      exact ⟨c :: a, rfl, hne⟩
    | none =>
      rw [lastExt, hcs] at h
      by_cases hc : (c == '.') = true
      · rw [if_pos hc] at h
        cases h
        have hdot : (c = '.') := eq_of_beq hc
        refine ⟨[], by rw [hdot]; rfl, ?_⟩
        have := lastExt_isSome e
        rw [hcs] at this
        exact this.symm
      · rw [if_neg hc] at h
        cases h

theorem takeWhile_all_append {α : Type} (p : α → Bool) (u : List α) (x : α) (t : List α)
    (hu : ∀ c ∈ u, p c = true) (hx : p x = false) :
    (u ++ x :: t).takeWhile p = u := by
  induction u with
  | nil => simp [List.takeWhile, hx]
  | cons c cs ih =>
    have hc : p c = true := hu c (by simp)
    simp only [List.cons_append, List.takeWhile_cons, hc, if_true]
    rw [ih (fun d hd => hu d (by simp [hd]))]

theorem suffixAfterLastDot_decomp (a e : Str) (he : e.contains '.' = false) :
    suffixAfterLastDot (a ++ '.' :: e) = e := by
  have hnotmem : '.' ∉ e := by
    rw [contains_eq_decide_mem] at he
    exact of_decide_eq_false he
  have hemem : ∀ c ∈ e.reverse, (!(c == '.')) = true := by
    intro c hc
    rw [List.mem_reverse] at hc
    have hne : c ≠ '.' := fun hcd => hnotmem (hcd ▸ hc)
    simp [hne]
  unfold suffixAfterLastDot
  rw [show (a ++ '.' :: e).reverse = e.reverse ++ '.' :: a.reverse by simp]
  rw [takeWhile_all_append _ _ _ _ hemem (by simp)]
  simp

theorem lastExt_eq_suffixAfterLastDot {f : Str} (hc : f.contains '.' = true) :
    lastExt f = some (suffixAfterLastDot f) := by
  have hs : (lastExt f).isSome = true := by rw [lastExt_isSome, hc]
  obtain ⟨e, he⟩ := Option.isSome_iff_exists.mp hs
  obtain ⟨a, rfl, hnd⟩ := lastExt_some_decomp he
  rw [he, suffixAfterLastDot_decomp a e hnd]

theorem mem_allowed_iff (x : Str) :
    ALLOWED_EXTENSIONS.contains x = true ↔
      (x = str "png" ∨ x = str "jpg" ∨ x = str "jpeg" ∨ x = str "dcm") := by
  simp [ALLOWED_EXTENSIONS, List.contains_cons, beq_iff_eq]

/-! ## Claim C4 -/

/-- C4: `is_allowed_file(filename, allowedExtensions)` returns true exactly
when the filename contains a `'.'` and the lowercased suffix after the last
`'.'` is one of `png`, `jpg`, `jpeg`, `dcm`; a filename without a `'.'`
always yields false. -/
theorem is_allowed_file_characterization (f g : Str) (hg : g.contains '.' = false) :
    (is_allowed_file f ALLOWED_EXTENSIONS = true ↔
      (f.contains '.' = true ∧
        (pyLower (suffixAfterLastDot f) = str "png" ∨
         pyLower (suffixAfterLastDot f) = str "jpg" ∨
         pyLower (suffixAfterLastDot f) = str "jpeg" ∨
         pyLower (suffixAfterLastDot f) = str "dcm"))) ∧
    is_allowed_file g ALLOWED_EXTENSIONS = false := by
  constructor
  · constructor
    · intro h
      unfold is_allowed_file at h
      by_cases hc : f.contains '.' = true
      · refine ⟨hc, ?_⟩
        rw [hc] at h
        simp only [Bool.not_true, Bool.false_eq_true, if_false] at h
        rw [lastExt_eq_suffixAfterLastDot hc] at h
        exact (mem_allowed_iff _).mp h
      · rw [Bool.not_eq_true] at hc
        rw [hc] at h
        simp at h
    · rintro ⟨hc, hmem⟩
      unfold is_allowed_file
      rw [hc]
      simp only [Bool.not_true, Bool.false_eq_true, if_false]
      rw [lastExt_eq_suffixAfterLastDot hc]
      exact (mem_allowed_iff _).mpr hmem
  · unfold is_allowed_file
    rw [hg]
    simp

/-- C4 witness: evaluate the characterization at `"a.PNG"` (allowed) and
`"noext"` (no dot). -/
theorem is_allowed_file_characterization_witness :
    ((is_allowed_file (str "a.PNG") ALLOWED_EXTENSIONS = true ↔
      ((str "a.PNG").contains '.' = true ∧
        (pyLower (suffixAfterLastDot (str "a.PNG")) = str "png" ∨
         pyLower (suffixAfterLastDot (str "a.PNG")) = str "jpg" ∨
         pyLower (suffixAfterLastDot (str "a.PNG")) = str "jpeg" ∨
         pyLower (suffixAfterLastDot (str "a.PNG")) = str "dcm"))) ∧
    is_allowed_file (str "noext") ALLOWED_EXTENSIONS = false) :=
  is_allowed_file_characterization (str "a.PNG") (str "noext") (by decide)

/-! ## Claim C8 -/

/-- C8 counterexample: two legitimate, distinct `uuid.uuid4().hex` draws
that agree on their first eight characters give `generate_image_id` the
same value, so distinct calls do not always produce distinct ids. -/
theorem generate_image_id_collision :
    hexDrawA ≠ hexDrawB ∧
    hexDrawA.length = 32 ∧ hexDrawB.length = 32 ∧
    hexDrawA.all isLowerHexDigit = true ∧ hexDrawB.all isLowerHexDigit = true ∧
    generate_image_id hexDrawA = generate_image_id hexDrawB := by
  refine ⟨by decide, by decide, by decide, by decide, by decide, by decide⟩

/-- C8 (amended): every value of `generate_image_id` matches
`^oct_[0-9a-f]{8}$`, and two calls collide exactly when the first eight
characters of their underlying random hex draws agree (so ids are
distinct whenever those prefixes differ, which holds with negligible
collision probability, but is not guaranteed). -/
theorem generate_image_id_pattern (h h2 : Str) (hlen : h.length = 32)
    (hhex : h.all isLowerHexDigit = true) :
    matchesIdPattern (generate_image_id h) = true ∧
    (generate_image_id h = generate_image_id h2 ↔ h.take 8 = h2.take 8) := by
  constructor
  · unfold matchesIdPattern generate_image_id
    refine Bool.and_eq_true_iff.mpr ⟨Bool.and_eq_true_iff.mpr ⟨?_, ?_⟩, ?_⟩
    · simp [str, hlen]
    · exact startsWithL_append (str "oct_") (h.take 8)
    · have hdrop : (str "oct_" ++ h.take 8).drop 4 = h.take 8 :=
        List.drop_left' (by rfl)
      rw [hdrop]
      rw [List.all_eq_true] at hhex ⊢
      exact fun c hc => hhex c (List.take_subset 8 h hc)
  · unfold generate_image_id
    exact List.append_right_inj (str "oct_")

/-- C8 witness: a concrete draw matches the pattern, and the collision
criterion evaluated against a second draw. -/
theorem generate_image_id_pattern_witness :
    matchesIdPattern (generate_image_id hexDrawC) = true ∧
    (generate_image_id hexDrawC = generate_image_id hexDrawB ↔
      hexDrawC.take 8 = hexDrawB.take 8) :=
  generate_image_id_pattern hexDrawC hexDrawB (by decide) (by decide)

/-! ## Claim C10 -/

/-- C10: `GET /mask/<id>` always succeeds (the handler aborts on no path
and returns a response for every id) with the six static layer-thickness
values, the static note, and an overlay URL pointing at
`results/result.jpg`; thickness and note do not depend on the id. -/
theorem mask_route_static (b h id id2 : Str) :
    (mask_route b h id).image_id = id ∧
    (mask_route b h id).retinal_layer_thickness =
      [(str "rnfl", 764/10), (str "gcl", 319/10), (str "ipl", 217/10),
       (str "opl", 194/10), (str "inl", 181/10), (str "onl", 852/10)] ∧
    (mask_route b h id).notes =
      str "RNFL thinning detected, consistent with glaucoma risk." ∧
    (mask_route b h id).overlay_mask_url =
      (if b ≠ [] then rstripSlash b else rstripSlash h) ++ str "/results/result.jpg" ∧
    (mask_route b h id).retinal_layer_thickness =
      (mask_route b h id2).retinal_layer_thickness ∧
    (mask_route b h id).notes = (mask_route b h id2).notes ∧
    (mask_route b h id).overlay_mask_url = (mask_route b h id2).overlay_mask_url :=
  ⟨rfl, rfl, rfl, rfl, rfl, rfl, rfl⟩

/-! ## Claim C7 -/

/-- C7: the summary/recommendation pair computed by the `predict` handler
coincides with the one rendered into the PDF report, and both branch two
ways only on whether the uppercased top label is `"NORMAL"`, using the
same two fixed templates around the formatted confidence percentage. -/
theorem summary_recommendation_agree (fmtOne : ℚ → Str) (lab labN labD : Str) (conf : ℚ)
    (hN : pyUpper labN = str "NORMAL") (hD : pyUpper labD ≠ str "NORMAL") :
    predict_summary_rec fmtOne lab conf = report_summary_rec fmtOne lab conf ∧
    predict_summary_rec fmtOne labN conf =
      (str "AI suggests no significant abnormalities detected (" ++ fmtOne (conf * 100)
         ++ str "% confidence).",
       str "Routine monitoring advised; follow standard screening intervals.") ∧
    predict_summary_rec fmtOne labD conf =
      (str "AI suggests " ++ labD ++ str " with " ++ fmtOne (conf * 100)
         ++ str "% confidence.",
       str "Recommend ophthalmology evaluation and correlation with clinical findings.") :=
  ⟨rfl, by simp [predict_summary_rec, hN], by simp [predict_summary_rec, hD]⟩

/-- C7 witness: evaluate the agreement at a normal-case label written in
lower case and at a disease label. -/
theorem summary_recommendation_agree_witness :
    predict_summary_rec (fun _ => []) (str "CNV") 1
        = report_summary_rec (fun _ => []) (str "CNV") 1 ∧
    predict_summary_rec (fun _ => []) (str "normal") 1 =
      (str "AI suggests no significant abnormalities detected ("
         ++ (fun _ => ([] : Str)) ((1 : ℚ) * 100) ++ str "% confidence).",
       str "Routine monitoring advised; follow standard screening intervals.") ∧
    predict_summary_rec (fun _ => []) (str "CNV") 1 =
      (str "AI suggests " ++ str "CNV" ++ str " with "
         ++ (fun _ => ([] : Str)) ((1 : ℚ) * 100) ++ str "% confidence.",
       str "Recommend ophthalmology evaluation and correlation with clinical findings.") :=
  summary_recommendation_agree (fun _ => []) (str "CNV") (str "normal") (str "CNV") 1
    (by decide) (by decide)

/-! ## Claim C5 -/

/-- C5 counterexample: when the first `load_model` call fails, the cache
is left empty — not poisoned — so the very next `get_model` call retries
the load and can succeed (here, after the model file appears on disk). -/
theorem get_model_retries_after_failure :
    (get_model loadFailNat (str "m.h5") (none : Option Nat)).1
        = Except.error (str "model file missing") ∧
    (get_model loadFailNat (str "m.h5") (none : Option Nat)).2 = none ∧
    (get_model loadOkNat (str "m.h5")
        (get_model loadFailNat (str "m.h5") (none : Option Nat)).2).1 = Except.ok 0 :=
  ⟨rfl, rfl, rfl⟩

/-- C5 (amended): `get_model` loads the model at most once per process —
once the cache is filled every later call returns the cached object
regardless of loader and path; a successful first load fills the cache;
a failed first load propagates the error and leaves the cache empty, so
the next call retries the load instead of seeing a poisoned cache. -/
theorem get_model_single_load {M : Type} (load load2 load3 : Str → Except Str M)
    (p p2 p3 p4 : Str) (m : M) (e : Str)
    (hok : load p = Except.ok m) (herr : load3 p3 = Except.error e) :
    get_model load2 p2 (some m) = (Except.ok m, some m) ∧
    get_model load p none = (Except.ok m, some m) ∧
    get_model load3 p3 none = (Except.error e, none) ∧
    get_model load2 p4 (get_model load3 p3 none).2 = get_model load2 p4 none := by
  refine ⟨rfl, ?_, ?_, ?_⟩
  · simp [get_model, hok]
  · simp [get_model, herr]
  · simp [get_model, herr]

/-- C5 witness: concrete loaders exercising the cached, the successful
and the failed branch, with the retry after the failure. -/
theorem get_model_single_load_witness :
    get_model loadOkNat (str "q.h5") (some 0) = (Except.ok 0, some 0) ∧
    get_model loadOkNat (str "m.h5") none = (Except.ok 0, some 0) ∧
    get_model loadFailNat (str "x.h5") none
        = (Except.error (str "model file missing"), none) ∧
    get_model loadOkNat (str "r.h5") (get_model loadFailNat (str "x.h5") none).2
        = get_model loadOkNat (str "r.h5") none :=
  get_model_single_load loadOkNat loadOkNat loadFailNat
    (str "m.h5") (str "q.h5") (str "x.h5") (str "r.h5") 0
    (str "model file missing") rfl rfl

/-! ## Claim C6 -/

/-- C6: `POST /upload` responds 400 when the `image` file field is absent
or its filename empty, 400 when the extension is not allowed; otherwise
it saves the file in the upload directory under the newly generated id
and returns that id with a success status. -/
theorem upload_route_behavior (sf : Str → Str) (hex fn fnBad : Str) (listing : List Str)
    (hfn : fn ≠ []) (hfnok : is_allowed_file fn ALLOWED_EXTENSIONS = true)
    (hbad : fnBad ≠ []) (hbadext : is_allowed_file fnBad ALLOWED_EXTENSIONS = false) :
    upload_route sf hex none listing = Except.error 400 ∧
    upload_route sf hex (some []) listing = Except.error 400 ∧
    upload_route sf hex (some fnBad) listing = Except.error 400 ∧
    upload_route sf hex (some fn) listing =
      Except.ok ({ image_id := generate_image_id hex },
        listing ++ [build_saved_filename sf (generate_image_id hex) fn]) := by
  refine ⟨rfl, rfl, ?_, ?_⟩
  · simp [upload_route, hbad, hbadext]
  · simp [upload_route, hfn, hfnok]

/-- C6 witness: a missing field, an empty filename, a `.txt` upload and a
successful `.png` upload evaluated concretely. -/
theorem upload_route_behavior_witness :
    upload_route (fun s => s) hexDrawC none [] = Except.error 400 ∧
    upload_route (fun s => s) hexDrawC (some []) [] = Except.error 400 ∧
    upload_route (fun s => s) hexDrawC (some (str "scan.txt")) [] = Except.error 400 ∧
    upload_route (fun s => s) hexDrawC (some (str "scan.png")) [] =
      Except.ok ({ image_id := generate_image_id hexDrawC },
        [] ++ [build_saved_filename (fun s => s) (generate_image_id hexDrawC)
                 (str "scan.png")]) :=
  upload_route_behavior (fun s => s) hexDrawC (str "scan.png") (str "scan.txt") []
    (by decide) (by decide) (by decide) (by decide)

/-! ## Claim C3 -/

theorem find?_eq_head?_filter {α : Type} (p : α → Bool) (l : List α) :
    l.find? p = (l.filter p).head? := by
  induction l with
  | nil => rfl
  | cons c cs ih =>
    cases hpc : p c with
    | true => simp [List.find?_cons_of_pos _ hpc, List.filter_cons, hpc]
    | false =>
      have hnp : ¬ p c = true := by simp [hpc]
      rw [List.find?_cons_of_neg _ hnp, List.filter_cons, if_neg hnp]
      exact ih

/-- C3: round-trip — if `build_saved_filename(X, originalFilename)` is
present in the upload directory's listing, then
`find_image_path_by_id(X, uploadDir)` returns a path (not `None`) whose
basename is the first name in directory-listing order carrying the
prefix `"X_"` — in particular that basename starts with `"X_"`. -/
theorem find_saved_roundtrip (sf : Str → Str) (X orig dir : Str) (listing : List Str)
    (hmem : build_saved_filename sf X orig ∈ listing) :
    find_image_path_by_id X dir true listing
        = some (pathJoin dir
            ((listing.filter (fun n => startsWithL n (X ++ ['_']))).headI)) ∧
    startsWithL ((listing.filter (fun n => startsWithL n (X ++ ['_']))).headI)
        (X ++ ['_']) = true := by
  have hdecomp : build_saved_filename sf X orig = (X ++ ['_']) ++ sf orig := by
    simp [build_saved_filename]
  have hp : startsWithL (build_saved_filename sf X orig) (X ++ ['_']) = true :=
    startsWithL_of_eq_append hdecomp
  have hfmem : build_saved_filename sf X orig
      ∈ listing.filter (fun n => startsWithL n (X ++ ['_'])) :=
    List.mem_filter.mpr ⟨hmem, hp⟩
  have hfne : listing.filter (fun n => startsWithL n (X ++ ['_'])) ≠ [] :=
    List.ne_nil_of_mem hfmem
  have hhead : (listing.filter (fun n => startsWithL n (X ++ ['_']))).head?
      = some ((listing.filter (fun n => startsWithL n (X ++ ['_']))).headI) := by
    cases hfl : listing.filter (fun n => startsWithL n (X ++ ['_'])) with
    | nil => exact absurd hfl hfne
    | cons a as => simp
  have hfind : listing.find? (fun n => startsWithL n (X ++ ['_']))
      = some ((listing.filter (fun n => startsWithL n (X ++ ['_']))).headI) := by
    rw [find?_eq_head?_filter, hhead]
  constructor
  · simp [find_image_path_by_id, hfind]
  · have hm : (listing.filter (fun n => startsWithL n (X ++ ['_']))).headI
        ∈ listing.filter (fun n => startsWithL n (X ++ ['_'])) := by
      cases hfl : listing.filter (fun n => startsWithL n (X ++ ['_'])) with
      | nil => exact absurd hfl hfne
      | cons a as => simp
    exact (List.mem_filter.mp hm).2

/-- C3 witness: a listing holding a non-match and two matches; the lookup
returns the first match in listing order. -/
theorem find_saved_roundtrip_witness :
    find_image_path_by_id (str "oct_01234567") (str "/up") true
        [str "zz.png", str "oct_01234567_a.png", str "oct_01234567_b.png"]
        = some (pathJoin (str "/up")
            (([str "zz.png", str "oct_01234567_a.png", str "oct_01234567_b.png"].filter
              (fun n => startsWithL n (str "oct_01234567" ++ ['_']))).headI)) ∧
    startsWithL
      (([str "zz.png", str "oct_01234567_a.png", str "oct_01234567_b.png"].filter
          (fun n => startsWithL n (str "oct_01234567" ++ ['_']))).headI)
      (str "oct_01234567" ++ ['_']) = true :=
  find_saved_roundtrip (fun s => s) (str "oct_01234567") (str "a.png") (str "/up")
    [str "zz.png", str "oct_01234567_a.png", str "oct_01234567_b.png"] (by decide)

/-! ## Claim C2 -/

/-- C2: `GET /predict/<id>` responds 404 exactly when
`find_image_path_by_id` resolves the id to no file in the upload
directory — in particular an id with no matching name in the listing
always yields 404 — and otherwise responds with the inference result's
predictions, top disease and confidence together with the derived
summary/recommendation pair. -/
theorem predict_route_404 (mp : Str → Str → List ℚ) (fmtOne : ℚ → Str)
    (uf mpath : Str) (isDir isDir2 isDirA : Bool)
    (listing listing2 listingA : List Str) (id id2 idA pathP : Str)
    (hP : find_image_path_by_id id uf isDir listing = some pathP)
    (hA : ∀ name ∈ listingA, startsWithL name (idA ++ ['_']) = false) :
    (predict_route mp fmtOne uf mpath isDir2 listing2 id2 = Except.error 404 ↔
      find_image_path_by_id id2 uf isDir2 listing2 = none) ∧
    predict_route mp fmtOne uf mpath isDirA listingA idA = Except.error 404 ∧
    predict_route mp fmtOne uf mpath isDir listing id =
      Except.ok
        { image_id := id
          predictions := (predict_oct mp pathP mpath (some CLASS_NAMES)).predictions
          top_disease := (predict_oct mp pathP mpath (some CLASS_NAMES)).top_disease
          confidence := (predict_oct mp pathP mpath (some CLASS_NAMES)).confidence
          summary := (predict_summary_rec fmtOne
              (predict_oct mp pathP mpath (some CLASS_NAMES)).top_disease
              (predict_oct mp pathP mpath (some CLASS_NAMES)).confidence).1
          recommendation := (predict_summary_rec fmtOne
              (predict_oct mp pathP mpath (some CLASS_NAMES)).top_disease
              (predict_oct mp pathP mpath (some CLASS_NAMES)).confidence).2 } := by
  refine ⟨?_, ?_, ?_⟩
  · cases hf : find_image_path_by_id id2 uf isDir2 listing2 with
    | none => simp [predict_route, hf]
    | some q => simp [predict_route, hf]
  · have hnone : find_image_path_by_id idA uf isDirA listingA = none := by
      cases isDirA with
      | false => rfl
      | true =>
        have hfind : listingA.find? (fun n => startsWithL n (idA ++ ['_'])) = none :=
          List.find?_eq_none.mpr (fun x hx => by simp [hA x hx])
        simp [find_image_path_by_id, hfind]
    simp [predict_route, hnone]
  · simp [predict_route, hP]

/-- C2 witness: a present id answers with the full inference payload, an
absent id answers 404, and the 404-iff-unresolvable equivalence at a
third id. -/
theorem predict_route_404_witness :
    (predict_route (fun _ _ => [0, 0, 0, 0, 0, 0, 0, 1]) (fun _ => [])
          (str "/up") (str "m.h5") true [] (str "nope") = Except.error 404 ↔
      find_image_path_by_id (str "nope") (str "/up") true [] = none) ∧
    predict_route (fun _ _ => [0, 0, 0, 0, 0, 0, 0, 1]) (fun _ => [])
        (str "/up") (str "m.h5") true [str "other.png"] (str "oct_ffffffff")
        = Except.error 404 ∧
    predict_route (fun _ _ => [0, 0, 0, 0, 0, 0, 0, 1]) (fun _ => [])
        (str "/up") (str "m.h5") true [str "oct_01234567_scan.png"] (str "oct_01234567") =
      Except.ok
        { image_id := str "oct_01234567"
          predictions := (predict_oct (fun _ _ => [0, 0, 0, 0, 0, 0, 0, 1])
              (pathJoin (str "/up") (str "oct_01234567_scan.png")) (str "m.h5")
              (some CLASS_NAMES)).predictions
          top_disease := (predict_oct (fun _ _ => [0, 0, 0, 0, 0, 0, 0, 1])
              (pathJoin (str "/up") (str "oct_01234567_scan.png")) (str "m.h5")
              (some CLASS_NAMES)).top_disease
          confidence := (predict_oct (fun _ _ => [0, 0, 0, 0, 0, 0, 0, 1])
              (pathJoin (str "/up") (str "oct_01234567_scan.png")) (str "m.h5")
              (some CLASS_NAMES)).confidence
          summary := (predict_summary_rec (fun _ => [])
              (predict_oct (fun _ _ => [0, 0, 0, 0, 0, 0, 0, 1])
                (pathJoin (str "/up") (str "oct_01234567_scan.png")) (str "m.h5")
                (some CLASS_NAMES)).top_disease
              (predict_oct (fun _ _ => [0, 0, 0, 0, 0, 0, 0, 1])
                (pathJoin (str "/up") (str "oct_01234567_scan.png")) (str "m.h5")
                (some CLASS_NAMES)).confidence).1
          recommendation := (predict_summary_rec (fun _ => [])
              (predict_oct (fun _ _ => [0, 0, 0, 0, 0, 0, 0, 1])
                (pathJoin (str "/up") (str "oct_01234567_scan.png")) (str "m.h5")
                (some CLASS_NAMES)).top_disease
              (predict_oct (fun _ _ => [0, 0, 0, 0, 0, 0, 0, 1])
                (pathJoin (str "/up") (str "oct_01234567_scan.png")) (str "m.h5")
                (some CLASS_NAMES)).confidence).2 } :=
  predict_route_404 (fun _ _ => [0, 0, 0, 0, 0, 0, 0, 1]) (fun _ => [])
    (str "/up") (str "m.h5") true true true
    [str "oct_01234567_scan.png"] [] [str "other.png"]
    (str "oct_01234567") (str "nope") (str "oct_ffffffff")
    (pathJoin (str "/up") (str "oct_01234567_scan.png"))
    (by decide) (by decide)

/-! ## Claim C9 -/

theorem assoc_find_isSome {β : Type} (d : List (Str × β)) (l : Str) :
    ((d.find? (fun kv => decide (kv.1 = l))).isSome = true) ↔ l ∈ d.map Prod.fst := by
  rw [List.find?_isSome]
  constructor
  · rintro ⟨kv, hkv, hp⟩
    have hfst : kv.1 = l := of_decide_eq_true hp
    exact hfst ▸ List.mem_map_of_mem Prod.fst hkv
  · intro hl
    rcases List.mem_map.mp hl with ⟨kv, hkv, hfst⟩
    exact ⟨kv, hkv, decide_eq_true hfst⟩

theorem fullNameGet_isSome_iff (l : Str) :
    (fullNameGet l).isSome = true ↔ l ∈ CLASS_NAMES := by
  have hkeys : disease_full_name.map Prod.fst = CLASS_NAMES := by decide
  unfold fullNameGet
  rw [Option.isSome_map', assoc_find_isSome, hkeys]

theorem build_pred_rows_ok (fmtTwo : ℚ → Str) (preds : PyDict)
    (h : ∀ kv ∈ preds, (fullNameGet kv.1).isSome = true) :
    ∃ rows, build_pred_rows fmtTwo preds = Except.ok rows := by
  induction preds with
  | nil => exact ⟨[], rfl⟩
  | cons kv rest ih =>
    obtain ⟨full, hfull⟩ := Option.isSome_iff_exists.mp (h kv (by simp))
    obtain ⟨rows, hrows⟩ := ih (fun kv2 h2 => h kv2 (by simp [h2]))
    cases kv with
    | mk d q =>
      exact ⟨(full, fmtTwo (q * 100) ++ str "%") :: rows,
        by simp [build_pred_rows, hfull, hrows]⟩

theorem build_pred_rows_err (fmtTwo : ℚ → Str) (preds : PyDict)
    (hbad : ∃ kv ∈ preds, fullNameGet kv.1 = none) :
    ∃ e, build_pred_rows fmtTwo preds = Except.error e := by
  induction preds with
  | nil =>
    rcases hbad with ⟨kv, h, _⟩
    cases h
  | cons kv rest ih =>
    cases kv with
    | mk d q =>
      cases hd : fullNameGet d with
      | none => exact ⟨d, by simp [build_pred_rows, hd]⟩
      | some full =>
        have hbad' : ∃ kv ∈ rest, fullNameGet kv.1 = none := by
          rcases hbad with ⟨kv2, hmem, hkv2⟩
          rcases List.mem_cons.mp hmem with h1 | h2
          · rw [h1] at hkv2
            rw [hd] at hkv2
            cases hkv2
          · exact ⟨kv2, h2, hkv2⟩
        obtain ⟨e, he⟩ := ih hbad'
        exact ⟨e, by simp [build_pred_rows, hd, he]⟩

/-- C9: the report's predictions table expands each label through the
fixed 8-entry `disease_full_name` table; the lookup succeeds for every
label of the configured class-name list (so the `KeyError` branch is
unreachable for dicts keyed by those labels), while any prediction label
outside those 8 names makes the row loop raise a lookup `KeyError` —
carrying the offending label — before the PDF is built. -/
theorem report_full_name_lookup (fmtTwo : ℚ → Str) (lab badLab : Str) (pBad : ℚ)
    (preds : PyDict)
    (hlab : lab ∈ CLASS_NAMES)
    (hgood : ∀ kv ∈ preds, kv.1 ∈ CLASS_NAMES)
    (hbad : badLab ∉ CLASS_NAMES) :
    (fullNameGet lab).isSome = true ∧
    exceptOk (build_pred_rows fmtTwo preds) = true ∧
    build_pred_rows fmtTwo ((badLab, pBad) :: preds) = Except.error badLab := by
  have hbadnone : fullNameGet badLab = none := by
    cases hfn : fullNameGet badLab with
    | none => rfl
    | some full =>
      exact absurd ((fullNameGet_isSome_iff badLab).mp (by rw [hfn]; rfl)) hbad
  refine ⟨(fullNameGet_isSome_iff lab).mpr hlab, ?_, ?_⟩
  · obtain ⟨rows, hrows⟩ := build_pred_rows_ok fmtTwo preds
      (fun kv hkv => (fullNameGet_isSome_iff kv.1).mpr (hgood kv hkv))
    rw [hrows]
    rfl
  · simp [build_pred_rows, hbadnone]

/-- C9 witness: the lookup at `"DR"`, a well-keyed two-entry dict, and a
dict led by the foreign label `"GLAUCOMA"` evaluated concretely. -/
theorem report_full_name_lookup_witness :
    (fullNameGet (str "DR")).isSome = true ∧
    exceptOk (build_pred_rows (fun _ => [])
        [(str "AMD", 1), (str "NORMAL", 0)]) = true ∧
    build_pred_rows (fun _ => [])
        ((str "GLAUCOMA", (1 : ℚ)) :: [(str "AMD", 1), (str "NORMAL", 0)])
        = Except.error (str "GLAUCOMA") :=
  report_full_name_lookup (fun _ => []) (str "DR") (str "GLAUCOMA") 1
    [(str "AMD", 1), (str "NORMAL", 0)]
    (by decide) (by decide) (by decide)

/-! ## Claim C1: argmax machinery -/

theorem le_maxVal (l : List ℚ) : ∀ p ∈ l, p ≤ maxVal l := by
  induction l with
  | nil => intro p hp; cases hp
  | cons x xs ih =>
    intro p hp
    cases xs with
    | nil =>
      have hx : p = x := by simpa using hp
      simp [hx, maxVal]
    | cons y ys =>
      rcases List.mem_cons.mp hp with hpx | hmem
      · rw [hpx, maxVal]
        exact le_max_left x (maxVal (y :: ys))
      · rw [maxVal]
        exact le_trans (ih p hmem) (le_max_right x (maxVal (y :: ys)))

theorem argmaxQ_lt_length (l : List ℚ) (h : l ≠ []) : argmaxQ l < l.length := by
  induction l with
  | nil => exact absurd rfl h
  | cons x xs ih =>
    cases xs with
    | nil => simp [argmaxQ]
    | cons y ys =>
      rw [argmaxQ]
      by_cases hlt : x < maxVal (y :: ys)
      · rw [if_pos hlt]
        exact Nat.succ_lt_succ (ih (by simp))
      · rw [if_neg hlt]
        exact Nat.succ_pos _

theorem getD_argmaxQ (l : List ℚ) (h : l ≠ []) : l.getD (argmaxQ l) 0 = maxVal l := by
  induction l with
  | nil => exact absurd rfl h
  | cons x xs ih =>
    cases xs with
    | nil => rfl
    | cons y ys =>
      rw [argmaxQ]
      by_cases hlt : x < maxVal (y :: ys)
      · rw [if_pos hlt, List.getD_cons_succ, ih (by simp), maxVal]
        exact (max_eq_right (le_of_lt hlt)).symm
      · rw [if_neg hlt, List.getD_cons_zero, maxVal]
        exact (max_eq_left (le_of_not_lt hlt)).symm

theorem getD_lt_maxVal_of_lt_argmaxQ (l : List ℚ) :
    ∀ j < argmaxQ l, l.getD j 0 < maxVal l := by
  induction l with
  | nil => intro j hj; simp [argmaxQ] at hj
  | cons x xs ih =>
    cases xs with
    | nil => intro j hj; simp [argmaxQ] at hj
    | cons y ys =>
      intro j hj
      rw [argmaxQ] at hj
      by_cases hlt : x < maxVal (y :: ys)
      · rw [if_pos hlt] at hj
        cases j with
        | zero =>
          rw [List.getD_cons_zero, maxVal]
          rw [max_eq_right (le_of_lt hlt)]
          exact hlt
        | succ k =>
          rw [List.getD_cons_succ, maxVal, max_eq_right (le_of_lt hlt)]
          exact ih k (Nat.lt_of_succ_lt_succ hj)
      · rw [if_neg hlt] at hj
        cases hj

/-! ## Claim C1: dict-comprehension machinery -/

theorem dictInsert_fresh (d : PyDict) (k : Str) (v : ℚ) (h : ∀ kv ∈ d, kv.1 ≠ k) :
    dictInsert d k v = d ++ [(k, v)] := by
  have hany : d.any (fun kv => decide (kv.1 = k)) = false :=
    List.any_eq_false.mpr (fun kv hkv => by simp [h kv hkv])
  unfold dictInsert
  rw [hany]
  rfl

theorem getElem_not_mem_take {α : Type} (l : List α) (m : Nat) (hm : m < l.length)
    (hnd : l.Nodup) : l[m] ∉ l.take m := by
  intro hmem
  have hsplit : l.take m ++ l.drop m = l := List.take_append_drop m l
  have hnd2 : (l.take m ++ l.drop m).Nodup := by rw [hsplit]; exact hnd
  have hdisj := (List.nodup_append.mp hnd2).2.2
  have hdrop : l[m] ∈ l.drop m := by
    rw [List.drop_eq_getElem_cons hm]
    exact List.mem_cons_self _ _
  exact hdisj hmem hdrop

theorem buildPreds_take (cn : List Str) (probs : List ℚ) (hnd : cn.Nodup)
    (hlen : probs.length = cn.length) :
    ∀ m, m ≤ cn.length →
      (List.range m).foldl
          (fun d i => dictInsert d (cn.getD i []) (probs.getD i 0)) []
        = (cn.take m).zip (probs.take m) := by
  intro m
  induction m with
  | zero => intro _; rfl
  | succ k ih =>
    intro hk1
    have hklt : k < cn.length := hk1
    have hkp : k < probs.length := by rw [hlen]; exact hklt
    rw [List.range_succ, List.foldl_append, ih (Nat.le_of_succ_le hk1)]
    have hgetcn : cn.getD k [] = cn[k] := List.getD_eq_getElem cn [] hklt
    have hgetpr : probs.getD k 0 = probs[k] := List.getD_eq_getElem probs 0 hkp
    have hfresh : ∀ kv ∈ (cn.take k).zip (probs.take k), kv.1 ≠ cn.getD k [] := by
      intro kv hkv heq
      have hfst : kv.1 ∈ cn.take k := (List.of_mem_zip hkv).1
      rw [heq, hgetcn] at hfst
      exact getElem_not_mem_take cn k hklt hnd hfst
    rw [List.foldl_cons, List.foldl_nil, dictInsert_fresh _ _ _ hfresh]
    have htakecn : cn.take (k + 1) = cn.take k ++ [cn[k]] := by
      rw [List.take_succ, List.getElem?_eq_getElem hklt]
      rfl
    have htakepr : probs.take (k + 1) = probs.take k ++ [probs[k]] := by
      rw [List.take_succ, List.getElem?_eq_getElem hkp]
      rfl
    rw [htakecn, htakepr,
      List.zip_append (by simp [List.length_take]; omega)]
    rw [hgetcn, hgetpr]
    rfl

theorem buildPreds_eq_zip (cn : List Str) (probs : List ℚ) (hnd : cn.Nodup)
    (hlen : probs.length = cn.length) :
    buildPreds cn probs = cn.zip probs := by
  unfold buildPreds
  rw [buildPreds_take cn probs hnd hlen cn.length (Nat.le_refl _)]
  rw [List.take_length, ← hlen, List.take_length]

theorem dictGet_zip (cn : List Str) (probs : List ℚ) (hnd : cn.Nodup) :
    ∀ t, t < cn.length → t < probs.length →
      dictGet (cn.zip probs) (cn.getD t []) = some (probs.getD t 0) := by
  induction cn generalizing probs with
  | nil => intro t ht _; cases ht
  | cons x cs ih =>
    intro t ht ht2
    cases probs with
    | nil => cases ht2
    | cons q qs =>
      cases t with
      | zero =>
        unfold dictGet
        rw [List.zip_cons_cons, List.find?_cons_of_pos _ (by simp)]
        rfl
      | succ k =>
        have hk : k < cs.length := Nat.lt_of_succ_lt_succ ht
        have hk2 : k < qs.length := Nat.lt_of_succ_lt_succ ht2
        have hkey_mem : cs.getD k [] ∈ cs := by
          rw [List.getD_eq_getElem cs [] hk]
          exact List.getElem_mem hk
        have hx : x ∉ cs := (List.nodup_cons.mp hnd).1
        have hne : ¬((x, q).1 = (x :: cs).getD (k + 1) []) := by
          rw [List.getD_cons_succ]
          intro he
          have he2 : x = cs.getD k [] := he
          exact hx (he2 ▸ hkey_mem)
        have hdec : decide ((x, q).1 = (x :: cs).getD (k + 1) []) = false :=
          decide_eq_false hne
        unfold dictGet
        rw [List.zip_cons_cons]
        simp only [List.find?_cons, hdec]
        rw [List.getD_cons_succ, List.getD_cons_succ]
        exact ih qs (List.nodup_cons.mp hnd).2 k hk hk2

/-- C1: for every image path and class-name list matching the model's
output vector 1:1 by position (with the fixed distinct labels, and model
outputs in `[0,1]` as the model contract demands), `predict_oct` returns
a predictions mapping with exactly `len(classNames)` entries, every
probability in `[0,1]`, `top_disease` equal to the label at the argmax
position of the output vector — the first index attaining the maximum —
and `predictions[top_disease]` equal to `confidence`. -/
theorem predict_oct_invariants (mp : Str → Str → List ℚ) (ip mpath : Str) (cn : List Str)
    (hnd : cn.Nodup)
    (hlen : (mp mpath ip).length = cn.length)
    (hnil : mp mpath ip ≠ [])
    (hrange : (mp mpath ip).all (fun p => decide (0 ≤ p ∧ p ≤ 1)) = true) :
    (predict_oct mp ip mpath (some cn)).predictions.length = cn.length ∧
    (predict_oct mp ip mpath (some cn)).predictions.all
        (fun kv => decide (0 ≤ kv.2 ∧ kv.2 ≤ 1)) = true ∧
    argmaxQ (mp mpath ip) < (mp mpath ip).length ∧
    (predict_oct mp ip mpath (some cn)).top_disease
        = cn.getD (argmaxQ (mp mpath ip)) [] ∧
    (predict_oct mp ip mpath (some cn)).confidence
        = (mp mpath ip).getD (argmaxQ (mp mpath ip)) 0 ∧
    (mp mpath ip).getD (argmaxQ (mp mpath ip)) 0 = maxVal (mp mpath ip) ∧
    (mp mpath ip).all (fun p => decide (p ≤ maxVal (mp mpath ip))) = true ∧
    (List.range (argmaxQ (mp mpath ip))).all
        (fun j => decide ((mp mpath ip).getD j 0 < maxVal (mp mpath ip))) = true ∧
    dictGet (predict_oct mp ip mpath (some cn)).predictions
        (predict_oct mp ip mpath (some cn)).top_disease
      = some ((predict_oct mp ip mpath (some cn)).confidence) := by
  have hzip : buildPreds cn (mp mpath ip) = cn.zip (mp mpath ip) :=
    buildPreds_eq_zip cn (mp mpath ip) hnd hlen
  have hpred : (predict_oct mp ip mpath (some cn)).predictions
      = cn.zip (mp mpath ip) := by
    rw [show (predict_oct mp ip mpath (some cn)).predictions
        = buildPreds cn (mp mpath ip) from rfl, hzip]
  have hargmax : argmaxQ (mp mpath ip) < (mp mpath ip).length :=
    argmaxQ_lt_length (mp mpath ip) hnil
  refine ⟨?_, ?_, hargmax, rfl, rfl, getD_argmaxQ (mp mpath ip) hnil, ?_, ?_, ?_⟩
  · rw [hpred, List.length_zip, hlen, Nat.min_self]
  · rw [hpred, List.all_eq_true]
    intro kv hkv
    have hsnd : kv.2 ∈ mp mpath ip := (List.of_mem_zip hkv).2
    rw [List.all_eq_true] at hrange
    exact hrange kv.2 hsnd
  · rw [List.all_eq_true]
    intro p hp
    exact decide_eq_true (le_maxVal (mp mpath ip) p hp)
  · rw [List.all_eq_true]
    intro j hj
    exact decide_eq_true
      (getD_lt_maxVal_of_lt_argmaxQ (mp mpath ip) j (List.mem_range.mp hj))
  · rw [hpred]
    have htop : (predict_oct mp ip mpath (some cn)).top_disease
        = cn.getD (argmaxQ (mp mpath ip)) [] := rfl
    have hconf : (predict_oct mp ip mpath (some cn)).confidence
        = (mp mpath ip).getD (argmaxQ (mp mpath ip)) 0 := rfl
    rw [htop, hconf]
    exact dictGet_zip cn (mp mpath ip) hnd (argmaxQ (mp mpath ip))
      (hlen ▸ hargmax) hargmax

/-- C1 witness: a concrete 8-entry probability vector against the
configured class names. -/
theorem predict_oct_invariants_witness :
    (predict_oct (fun _ _ => [0, 1, 0, 0, 0, 0, 0, 1]) (str "img") (str "m.h5")
        (some CLASS_NAMES)).predictions.length = CLASS_NAMES.length ∧
    (predict_oct (fun _ _ => [0, 1, 0, 0, 0, 0, 0, 1]) (str "img") (str "m.h5")
        (some CLASS_NAMES)).predictions.all
        (fun kv => decide (0 ≤ kv.2 ∧ kv.2 ≤ 1)) = true ∧
    argmaxQ [0, 1, 0, 0, 0, 0, 0, 1] < ([0, 1, 0, 0, 0, 0, 0, 1] : List ℚ).length ∧
    (predict_oct (fun _ _ => [0, 1, 0, 0, 0, 0, 0, 1]) (str "img") (str "m.h5")
        (some CLASS_NAMES)).top_disease
        = CLASS_NAMES.getD (argmaxQ [0, 1, 0, 0, 0, 0, 0, 1]) [] ∧
    (predict_oct (fun _ _ => [0, 1, 0, 0, 0, 0, 0, 1]) (str "img") (str "m.h5")
        (some CLASS_NAMES)).confidence
        = ([0, 1, 0, 0, 0, 0, 0, 1] : List ℚ).getD (argmaxQ [0, 1, 0, 0, 0, 0, 0, 1]) 0 ∧
    ([0, 1, 0, 0, 0, 0, 0, 1] : List ℚ).getD (argmaxQ [0, 1, 0, 0, 0, 0, 0, 1]) 0
        = maxVal [0, 1, 0, 0, 0, 0, 0, 1] ∧
    ([0, 1, 0, 0, 0, 0, 0, 1] : List ℚ).all
        (fun p => decide (p ≤ maxVal [0, 1, 0, 0, 0, 0, 0, 1])) = true ∧
    (List.range (argmaxQ [0, 1, 0, 0, 0, 0, 0, 1])).all
        (fun j => decide (([0, 1, 0, 0, 0, 0, 0, 1] : List ℚ).getD j 0
          < maxVal [0, 1, 0, 0, 0, 0, 0, 1])) = true ∧
    dictGet (predict_oct (fun _ _ => [0, 1, 0, 0, 0, 0, 0, 1]) (str "img") (str "m.h5")
        (some CLASS_NAMES)).predictions
        (predict_oct (fun _ _ => [0, 1, 0, 0, 0, 0, 0, 1]) (str "img") (str "m.h5")
          (some CLASS_NAMES)).top_disease
      = some ((predict_oct (fun _ _ => [0, 1, 0, 0, 0, 0, 0, 1]) (str "img") (str "m.h5")
          (some CLASS_NAMES)).confidence) :=
  predict_oct_invariants (fun _ _ => [0, 1, 0, 0, 0, 0, 0, 1]) (str "img") (str "m.h5")
    CLASS_NAMES (by decide) (by decide) (by decide) (by decide)

end OCT
